import Mathlib

/-!
Shallow embedding of `src/studio/feature/stylepane.py` (the Formation
style-pane feature): the reusable style-item pool (`ReusableStyleItem`),
the style groups (`StyleGroup`, `IdentityGroup`, `AttributeGroup`,
`LayoutGroup`) and the panel orchestration (`StylePane`).

Machine state is passed explicitly: a `World` holds every live style item
and the class-level pool `ReusableStyleItem._pool`; group and panel objects
are records threaded through the operations.  Python exceptions are
modelled by an explicit error component that carries the partially mutated
state, matching Python semantics where mutations before a raise persist.
-/

/-- Kinds of Python exception the embedded code can raise. -/
inductive PyErr where
  | attributeError
  | typeError
  | keyError
deriving DecidableEq, Repr

/-- A style definition dict as consumed by `stylepane.py`: the code reads
its `name`, `display_name` and `value` entries. -/
structure StyleDefinition where
  name : String
  display_name : String
  value : String
deriving DecidableEq, Repr

/-- A Python dict key as used by the pool.  `ReusableStyleItem.__init__`
registers items under string keys (`style_definition.get("name")`), while
`ReusableStyleItem.destroy` tests `self in pool`, i.e. membership of the
item object among the keys.  Python equality between a string and a widget
object is `False` (different types, default `==`), which the disjoint
constructors reflect. -/
inductive PoolKey where
  | str (s : String)
  | obj (id : Nat)
deriving DecidableEq, Repr

/-- Association-list lookup (Python `dict.get`). -/
def alookup {α β : Type} [DecidableEq α] : List (α × β) → α → Option β
  | [], _ => none
  | p :: ps, k => if p.1 = k then some p.2 else alookup ps k

/-- Association-list insert-or-overwrite (Python `dict[k] = v`). -/
def ainsert {α β : Type} [DecidableEq α] : List (α × β) → α → β → List (α × β)
  | [], k, v => [(k, v)]
  | p :: ps, k, v => if p.1 = k then (k, v) :: ps else p :: ainsert ps k v

/-- Association-list removal (Python `dict.pop(k)` after a membership test). -/
def aerase {α β : Type} [DecidableEq α] : List (α × β) → α → List (α × β)
  | [], _ => []
  | p :: ps, k => if p.1 = k then ps else p :: aerase ps k

/-- State of one `ReusableStyleItem` widget.  Attributes `name`, `_editor`
value, `_label` text, `definition` and `_on_change` live on the external
`StyleItem` base class (`studio.ui.editors`, not under `src/`); they are
modelled from the spec's EditorRow description and from how
`stylepane.py` reads and writes them.  `is_available` and the Tk
mapped/visible flag are from `ReusableStyleItem` itself.  Callbacks are
identified by an opaque numeric id. -/
structure RowState where
  parent : Nat
  name : String
  value : String
  label : String
  defn_display_name : String
  on_change : Option Nat
  is_available : Bool
  mapped : Bool
deriving DecidableEq, Repr

/-- Modelled from the spec: the Tk `<Map>` event fires when a widget
becomes visible; `ReusableStyleItem.__init__` binds it to
`_make_available(False)`.  The event fires only on an unmapped-to-mapped
transition, synchronously (spec section 5). -/
def mapRow (r : RowState) : RowState :=
  if r.mapped then r else { r with mapped := true, is_available := false }

/-- Modelled from the spec: the Tk `<Unmap>` event fires when a widget
becomes hidden; `ReusableStyleItem.__init__` binds it to
`_make_available(True)`. -/
def unmapRow (r : RowState) : RowState :=
  if r.mapped then { r with mapped := false, is_available := true } else r

/-- First step of `ReusableStyleItem._re_purposed`: `if on_change is not
None: self._on_change = on_change`. -/
def rpInstalled (r : RowState) (oc : Option Nat) : RowState :=
  match oc with
  | some c => { r with on_change := some c }
  | none => r

/-- State after `temp = self._on_change; self._on_change = None`. -/
def rpNulled (r : RowState) (oc : Option Nat) : RowState :=
  { rpInstalled r oc with on_change := none }

/-- State after `self.name = style_definition.get("name")`. -/
def rpNamed (r : RowState) (oc : Option Nat) (d : StyleDefinition) : RowState :=
  { rpNulled r oc with name := d.name }

/-- State after `self._editor.set(style_definition.get("value"))`
(when that external call returns normally). -/
def rpValued (r : RowState) (oc : Option Nat) (d : StyleDefinition) : RowState :=
  { rpNamed r oc d with value := d.value }

/-- State after `self._label.configure(text=...)`. -/
def rpLabeled (r : RowState) (oc : Option Nat) (d : StyleDefinition) : RowState :=
  { rpValued r oc d with label := d.display_name }

/-- The whole of `ReusableStyleItem._re_purposed`.  The external
`self._editor.set` call may raise; `setOk` says whether it returns
normally.  On a raise the exception propagates with the row left in its
partially mutated state (there is no try/finally in the source), carried
in the `error` constructor. -/
def rePurposed (r : RowState) (d : StyleDefinition) (oc : Option Nat)
    (setOk : Bool) : Except RowState RowState :=
  if setOk then
    Except.ok { rpLabeled r oc d with on_change := (rpInstalled r oc).on_change }
  else
    Except.error (rpNamed r oc d)

/-- The normal-return behaviour of `_re_purposed`, used at call sites that
model nominal runs. -/
def rePurposedOk (r : RowState) (d : StyleDefinition) (oc : Option Nat) : RowState :=
  { rpLabeled r oc d with on_change := (rpInstalled r oc).on_change }

/-- Machine state shared by all style items: the live widgets (keyed by an
opaque numeric identity) and the class attribute `ReusableStyleItem._pool`,
a `defaultdict` mapping a parent scope to a dict from definition name to
item.  `nextId` supplies fresh widget identities. -/
structure World where
  rows : List (Nat × RowState)
  pool : List (Nat × List (PoolKey × Nat))
  nextId : Nat
deriving DecidableEq, Repr

def World.findRow (w : World) (rid : Nat) : Option RowState := alookup w.rows rid

def World.setRow (w : World) (rid : Nat) (r : RowState) : World :=
  { w with rows := ainsert w.rows rid r }

/-- Python `ReusableStyleItem._pool.get(parent)`: `None` when the scope has
no entry. -/
def World.poolOf (w : World) (scope : Nat) : Option (List (PoolKey × Nat)) :=
  alookup w.pool scope

/-- The body of `ReusableStyleItem.__init__`: the super constructor stores
the definition fields and callback on the fresh (still unmapped) widget,
`is_available` is set to `True`, and the item registers itself at
`_pool[parent][style_definition.get("name")]` (the `defaultdict` creates
the scope dict when absent). -/
def mkRow (w : World) (parent : Nat) (d : StyleDefinition) (oc : Option Nat) :
    Nat × World :=
  let rid := w.nextId
  let r : RowState :=
    { parent := parent, name := d.name, value := d.value,
      label := d.display_name, defn_display_name := d.display_name,
      on_change := oc, is_available := true, mapped := false }
  let pd := (w.poolOf parent).getD []
  (rid,
    { rows := ainsert w.rows rid r,
      pool := ainsert w.pool parent (ainsert pd (PoolKey.str d.name) rid),
      nextId := w.nextId + 1 })

/-- `ReusableStyleItem.acquire`: look the parent scope up in the pool
(`dict.get`, no default insertion); if the scope dict is truthy
(non-empty) and holds an available item under the definition name, return
that item re-purposed (nominal run of `_re_purposed`); otherwise construct
a fresh item. -/
def acquire (w : World) (parent : Nat) (d : StyleDefinition) (oc : Option Nat) :
    Nat × World :=
  match w.poolOf parent with
  | some pd =>
    if pd.isEmpty then mkRow w parent d oc
    else
      match alookup pd (PoolKey.str d.name) with
      | some rid =>
        match w.findRow rid with
        | some r =>
          if r.is_available then (rid, w.setRow rid (rePurposedOk r d oc))
          else mkRow w parent d oc
        | none => mkRow w parent d oc
      | none => mkRow w parent d oc
  | none => mkRow w parent d oc

/-- The guard cascade of `acquire` as a lookup: `some rid` exactly when the
scope dict exists, is non-empty, maps the definition name to an item, and
that item's `is_available` is `True`. -/
def pooled_available (w : World) (parent : Nat) (nm : String) : Option Nat :=
  match w.poolOf parent with
  | some pd =>
    if pd.isEmpty then none
    else
      match alookup pd (PoolKey.str nm) with
      | some rid =>
        match w.findRow rid with
        | some r => if r.is_available then some rid else none
        | none => none
      | none => none
  | none => none

/-- `ReusableStyleItem.destroy`: `pool = self._pool[self.parent]` (the
`defaultdict` creates an empty dict when the scope is absent), then
`if self in pool: pool.pop(self)` — a membership test of the item object
among the keys of the dict, whose keys are definition-name strings — and
finally `super().destroy()` removes the widget itself. -/
def destroyRow (w : World) (rid : Nat) : World :=
  match w.findRow rid with
  | none => w
  | some r =>
    let pd := (w.poolOf r.parent).getD []
    let pd2 :=
      if (pd.map Prod.fst).contains (PoolKey.obj rid) then
        aerase pd (PoolKey.obj rid)
      else pd
    { w with pool := ainsert w.pool r.parent pd2,
             rows := aerase w.rows rid }

/-- A layout strategy object of the host application (external): identity
compared by class (`__class__`, an opaque numeric class id here) and
carrying a display `sname` (`layout_strategy.name` in the source). -/
structure LayoutStrategy where
  cls : Nat
  sname : String
deriving DecidableEq, Repr

/-- A selected host-application widget (external collaborator).  `wid` is
the object identity, `cls` its `__class__`.  `identity` and `properties`
model duck-typed attributes: `none` means `hasattr` is false (the
attribute is absent), `some m` the attribute holding mapping `m`.
`layout_strategy` models `widget.layout.layout_strategy` and `layout_defs`
the result of `widget.layout.definition_for(widget)`. -/
structure Widget where
  wid : Nat
  cls : Nat
  identity : Option (List StyleDefinition)
  properties : Option (List StyleDefinition)
  layout_strategy : LayoutStrategy
  layout_defs : List StyleDefinition
deriving DecidableEq, Repr

/-- The four group classes of `stylepane.py`. -/
inductive GroupKind where
  | base
  | identityG
  | attributeG
  | layoutG
deriving DecidableEq, Repr

/-- State of a `StyleGroup` (and its subclasses).  Source attribute names:
`_widget`, `_prev_widget`, `_has_initialized`, `items`, and on
`LayoutGroup` additionally `_prev_layout`; `label` is the group caption.
The group itself is the pool scope its style items are parented under
(`scope` is its object identity). -/
structure GroupState where
  kind : GroupKind
  scope : Nat
  label : String
  cur_widget : Option Widget
  prev_widget : Option Widget
  has_initialized : Bool
  items : List (String × Nat)
  prev_layout : Option LayoutStrategy
deriving DecidableEq, Repr

/-- Python `x.__class__` of an optional widget: `None.__class__` is
`NoneType`, modelled as `none`. -/
def widget_class (w : Option Widget) : Option Nat := w.map (fun x => x.cls)

/-- Python `s.__class__` of an optional layout strategy (`NoneType` for
`None`). -/
def strat_class (s : Option LayoutStrategy) : Option Nat := s.map (fun x => x.cls)

/-- Python `==` on optional widgets: host objects compare by identity
(default `object.__eq__`), and `None == None` is `True`. -/
def py_eq_widget (a b : Option Widget) : Bool :=
  match a, b with
  | none, none => true
  | some x, some y => x.wid == y.wid
  | _, _ => false

/-- The `get_definition` methods.  Base `StyleGroup` returns `{}`;
`IdentityGroup` returns `self.widget.identity` when the attribute exists
and Python `None` (modelled `none`) otherwise; `AttributeGroup` returns
`self.widget.properties` or `{}`; `LayoutGroup` returns
`self.widget.layout.definition_for(self.widget)` for a non-`None` widget
and `{}` otherwise.  A `hasattr` probe on Python `None` is false. -/
def get_definition (g : GroupState) : Option (List StyleDefinition) :=
  match g.kind with
  | GroupKind.base => some []
  | GroupKind.identityG =>
    match g.cur_widget with
    | some w => w.identity
    | none => none
  | GroupKind.attributeG =>
    match g.cur_widget with
    | some w => some (w.properties.getD [])
    | none => some []
  | GroupKind.layoutG =>
    match g.cur_widget with
    | some w => some w.layout_defs
    | none => some []

/-- The `can_optimize` methods.  Base: `False`.  Identity:
`self._has_initialized`.  Attribute: `self._widget.__class__ ==
self._prev_widget.__class__ and self._has_initialized`.  Layout:
`layout_strategy.__class__ == self._prev_layout.__class__ and self.widget
== self._prev_widget` — reading `self.widget.layout.layout_strategy`
first, which would raise `AttributeError` on a `None` widget; every call
site invokes it only after the `None` check in `on_widget_change`, so the
`none` branch is unreachable there. -/
def can_optimize (g : GroupState) : Bool :=
  match g.kind with
  | GroupKind.base => false
  | GroupKind.identityG => g.has_initialized
  | GroupKind.attributeG =>
    (widget_class g.cur_widget == widget_class g.prev_widget) && g.has_initialized
  | GroupKind.layoutG =>
    match g.cur_widget with
    | some w =>
      (strat_class (some w.layout_strategy) == strat_class g.prev_layout) &&
        py_eq_widget g.cur_widget g.prev_widget
    | none => false

/-- World update for a `<Map>`-producing show (`item.pack(...)` in
`StyleGroup._show`). -/
def showRowW (w : World) (rid : Nat) : World :=
  match w.findRow rid with
  | some r => w.setRow rid (mapRow r)
  | none => w

/-- World update for an `<Unmap>`-producing hide (`item.pack_forget()` in
`StyleGroup._hide`). -/
def hideRowW (w : World) (rid : Nat) : World :=
  match w.findRow rid with
  | some r => w.setRow rid (unmapRow r)
  | none => w

/-- Nominal in-place `_re_purposed` of a pooled row inside the world. -/
def rePurposeW (w : World) (rid : Nat) (d : StyleDefinition) (oc : Option Nat) :
    World :=
  match w.findRow rid with
  | some r => w.setRow rid (rePurposedOk r d oc)
  | none => w

/-- Modelled from the spec: `clear_children` on the external
`CollapseFrame` unmaps every child widget of the group (the source
comments that it returns all style items to the pool for reuse); each
mapped child receives its `<Unmap>` event synchronously. -/
def clearChildrenW (w : World) (scope : Nat) : World :=
  { w with
    rows := w.rows.map (fun p => if p.2.parent = scope then (p.1, unmapRow p.2) else p) }

/-- Modelled from the spec: `collapse` on the external `CollapseFrame`
hides the group body, unmapping its children (spec: hiding rows flips
their availability); it touches no pool state. -/
def collapseW (w : World) (scope : Nat) : World := clearChildrenW w scope

/-- Which branch of `StyleGroup.on_widget_change` ran. -/
inductive Branch where
  | collapsed
  | refresh
  | rebuild
deriving DecidableEq, Repr

/-- Result of a group update: the Python exception that escaped (if any),
the group and world in their final (possibly partially mutated) state, and
the branch taken. -/
structure GOut where
  err : Option PyErr
  g : GroupState
  w : World
  branch : Branch
deriving DecidableEq, Repr

/-- The optimized branch: `for prop in definitions:
self.items[prop]._re_purposed(definitions[prop])`.  A definition name
absent from `items` raises `KeyError`; iteration stops there with the
mutations so far kept. -/
def refreshLoop (g : GroupState) : World → List StyleDefinition → Option PyErr × World
  | w, [] => (none, w)
  | w, d :: ds =>
    match alookup g.items d.name with
    | some rid => refreshLoop g (rePurposeW w rid d none) ds
    | none => (some PyErr.keyError, w)

/-- One step of the rebuild branch:
`self.add(ReusableStyleItem.acquire(self, definitions[p], self.apply))` —
acquire keyed by this group, record under the item name, then `_show`
packs it (firing `<Map>`).  The bound-method callback `self.apply` is
identified by the group's scope id. -/
def stepAcquire (g : GroupState) (w : World) (d : StyleDefinition) :
    GroupState × World :=
  let a := acquire w g.scope d (some g.scope)
  let g2 := { g with items := ainsert g.items d.name a.1 }
  (g2, showRowW a.2 a.1)

/-- The rebuild branch's `list(map(...))` over the definitions, in order. -/
def rebuildLoop : GroupState → World → List StyleDefinition → GroupState × World
  | g, w, [] => (g, w)
  | g, w, d :: ds =>
    let s := stepAcquire g w d
    rebuildLoop s.1 s.2 ds

/-- The epilogue `self._has_initialized = True; self._prev_widget =
widget`. -/
def finishGroup (g : GroupState) (widget : Option Widget) : GroupState :=
  { g with has_initialized := true, prev_widget := widget }

/-- `StyleGroup.on_widget_change`: store the widget; on `None` collapse
and return; otherwise fetch the definitions, branch on `can_optimize`, and
either re-purpose the items in place or clear everything and re-acquire
from the pool; finally set the initialized flag and previous widget.
Iterating a `None` definitions value raises `TypeError` at the loop. -/
def styleGroupOnWidgetChange (g : GroupState) (w : World) (widget : Option Widget) :
    GOut :=
  let g0 := { g with cur_widget := widget }
  match widget with
  | none => { err := none, g := g0, w := collapseW w g0.scope, branch := Branch.collapsed }
  | some _ =>
    let defs := get_definition g0
    if can_optimize g0 then
      match defs with
      | none => { err := some PyErr.typeError, g := g0, w := w, branch := Branch.refresh }
      | some ds =>
        match refreshLoop g0 w ds with
        | (some e, w2) => { err := some e, g := g0, w := w2, branch := Branch.refresh }
        | (none, w2) =>
          { err := none, g := finishGroup g0 widget, w := w2, branch := Branch.refresh }
    else
      let w1 := clearChildrenW w g0.scope
      let g1 := { g0 with items := [] }
      match defs with
      | none => { err := some PyErr.typeError, g := g1, w := w1, branch := Branch.rebuild }
      | some ds =>
        let s := rebuildLoop g1 w1 ds
        { err := none, g := finishGroup s.1 widget, w := s.2, branch := Branch.rebuild }

/-- `LayoutGroup.on_widget_change`: run the base method, then
`self._prev_layout = widget.layout.layout_strategy` — which raises
`AttributeError` when `widget` is `None` — then set the caption from the
strategy name (the `if widget:` guard, whose else branch is unreachable
because the attribute access raised first). -/
def layoutGroupOnWidgetChange (g : GroupState) (w : World) (widget : Option Widget) :
    GOut :=
  let o := styleGroupOnWidgetChange g w widget
  match o.err with
  | some _ => o
  | none =>
    match widget with
    | none => { o with err := some PyErr.attributeError }
    | some wd =>
      let g1 := { o.g with prev_layout := some wd.layout_strategy }
      { o with g := { g1 with label := "Layout (" ++ wd.layout_strategy.sname ++ ")" } }

/-- Virtual dispatch of `on_widget_change` over the group classes (only
`LayoutGroup` overrides it). -/
def groupOnWidgetChange (g : GroupState) (w : World) (widget : Option Widget) :
    GOut :=
  match g.kind with
  | GroupKind.layoutG => layoutGroupOnWidgetChange g w widget
  | _ => styleGroupOnWidgetChange g w widget

/-- `StyleGroup.apply`: return immediately on a `None` widget; otherwise
try `self.widget.configure(**{...})` (external; `cfgOk` says whether it
returns normally).  On an exception, log `e` and the message — unless the
value is the empty string, which is suppressed as too common.  The method
touches no row or pool state and lets no exception escape; it returns the
log entries produced. -/
def styleGroupApply (g : GroupState) (w : World) (cfgOk : Bool)
    (excMsg prop value : String) : World × List String :=
  match g.cur_widget with
  | none => (w, [])
  | some _ =>
    if cfgOk then (w, [])
    else if value = "" then (w, [])
    else (w, [excMsg, "Could not set style " ++ prop ++ " as " ++ value])

/-- `LayoutGroup.apply`: try `self.widget.layout.apply(prop, value,
self.widget)` inside the `try` — on a `None` widget the attribute access
itself raises, which the `except` also catches — and on any exception log
one message unconditionally.  No exception escapes; the log entries are
returned. -/
def layoutGroupApply (g : GroupState) (w : World) (applyOk : Bool)
    (excMsg prop value : String) : World × List String :=
  let raises := g.cur_widget.isNone || !applyOk
  if raises then
    (w, [excMsg ++ " : Could not set layout " ++ prop ++ " as " ++ value])
  else (w, [])

/-- Python `query in text` on strings: substring containment. -/
def strContains (query text : String) : Bool :=
  decide (query.toList <:+: text.toList)

/-- `StyleGroup.on_search_query`: over `self.items.values()` in insertion
order, show the items whose stored `definition` display name contains the
query and hide the rest (`pack` / `pack_forget`, firing `<Map>` /
`<Unmap>` on visibility transitions).  Note `_re_purposed` never updates
`self.definition`, so the display name consulted here is the one from the
item's construction. -/
def groupOnSearchQuery (g : GroupState) (w : World) (query : String) : World :=
  g.items.foldl
    (fun acc it =>
      match acc.findRow it.2 with
      | some r =>
        if strContains query r.defn_display_name then showRowW acc it.2
        else hideRowW acc it.2
      | none => acc)
    w

/-- `StyleGroup.on_search_clear` calls `on_search_query("")`. -/
def groupOnSearchClear (g : GroupState) (w : World) : World :=
  groupOnSearchQuery g w ""

/-- State of the `StylePane` panel: its groups in registration order
(identity, layout, attribute), the current widget, and the placeholder
overlay (`none` when hidden, otherwise the text shown). -/
structure PanelState where
  groups : List GroupState
  current : Option Widget
  placeholder : Option String
deriving DecidableEq, Repr

/-- Result of a panel selection change: escaped exception (if any), final
panel and world, and the scopes of the groups whose `on_widget_change` was
invoked, in invocation order. -/
structure POut where
  err : Option PyErr
  p : PanelState
  w : World
  notified : List Nat
deriving DecidableEq, Repr

/-- The `for group in self.groups: group.on_widget_change(widget)` loop;
an exception aborts the loop and propagates, keeping prior mutations. -/
def notifyGroups : List GroupState → World → Option Widget →
    Option PyErr × List GroupState × World × List Nat
  | [], w, _ => (none, [], w, [])
  | g :: gs, w, wd =>
    let o := groupOnWidgetChange g w wd
    match o.err with
    | some e => (some e, o.g :: gs, o.w, [g.scope])
    | none =>
      let rest := notifyGroups gs o.w wd
      (rest.1, o.g :: rest.2.1, rest.2.2.1, g.scope :: rest.2.2.2)

/-- `StylePane.styles_for`: record the selection; when it is `None`, show
the empty placeholder and return at once (no group is notified); otherwise
show the loading placeholder, notify every group in registration order,
and remove the placeholder. -/
def stylesFor (p : PanelState) (w : World) (widget : Option Widget) : POut :=
  let p0 := { p with current := widget }
  match widget with
  | none =>
    { err := none, p := { p0 with placeholder := some "empty" }, w := w,
      notified := [] }
  | some _ =>
    let p1 := { p0 with placeholder := some "loading" }
    let r := notifyGroups p1.groups w widget
    match r.1 with
    | some e =>
      { err := some e, p := { p1 with groups := r.2.1 }, w := r.2.2.1,
        notified := r.2.2.2 }
    | none =>
      { err := none, p := { p1 with groups := r.2.1, placeholder := none },
        w := r.2.2.1, notified := r.2.2.2 }

/-- `StylePane.layout_for` forwards only to `self._layout_group`, the
second registered group. -/
def layoutFor (p : PanelState) (w : World) (widget : Widget) :
    Option PyErr × PanelState × World :=
  match p.groups with
  | g0 :: g1 :: rest =>
    let o := groupOnWidgetChange g1 w (some widget)
    (o.err, { p with groups := g0 :: o.g :: rest }, o.w)
  | _ => (none, p, w)

/-- `StylePane.on_search_query` forwards the query to every group. -/
def panelOnSearchQuery (p : PanelState) (w : World) (query : String) : World :=
  p.groups.foldl (fun acc g => groupOnSearchQuery g acc query) w

/-- `StylePane.on_search_clear` forwards the clear to every group. -/
def panelOnSearchClear (p : PanelState) (w : World) : World :=
  p.groups.foldl (fun acc g => groupOnSearchClear g acc) w

/-- The whole interactive system: panel plus machine state. -/
structure Sys where
  panel : PanelState
  world : World
deriving DecidableEq, Repr

/-- The externally triggered operations of the style pane. -/
inductive Op where
  | select (wd : Option Widget)
  | search (q : String)
  | searchClear
  | layoutChanged (wd : Widget)
  | destroy (rid : Nat)
deriving Repr

/-- One event-loop step of the system. -/
def applyOp (s : Sys) : Op → Sys
  | Op.select wd =>
    let o := stylesFor s.panel s.world wd
    { panel := o.p, world := o.w }
  | Op.search q => { s with world := panelOnSearchQuery s.panel s.world q }
  | Op.searchClear => { s with world := panelOnSearchClear s.panel s.world }
  | Op.layoutChanged wd =>
    let o := layoutFor s.panel s.world wd
    { panel := o.2.1, world := o.2.2 }
  | Op.destroy rid => { s with world := destroyRow s.world rid }

/-- A fresh group as built by the `__init__` chain of each group class
(`label` per subclass; no widget, not initialized, empty items). -/
def initGroup (kind : GroupKind) (scope : Nat) (label : String) : GroupState :=
  { kind := kind, scope := scope, label := label, cur_widget := none,
    prev_widget := none, has_initialized := false, items := [],
    prev_layout := none }

/-- The panel as built by `StylePane.__init__`: identity, layout and
attribute groups registered in that order, empty placeholder shown, no
current widget. -/
def initPanel : PanelState :=
  { groups :=
      [initGroup GroupKind.identityG 0 "Widget identity",
       initGroup GroupKind.layoutG 1 "Layout",
       initGroup GroupKind.attributeG 2 "Attributes"],
    current := none, placeholder := some "empty" }

/-- The machine state before any style item exists. -/
def initWorld : World := { rows := [], pool := [], nextId := 10 }

/-- The initial system. -/
def initSys : Sys := { panel := initPanel, world := initWorld }

/-- The per-row availability invariant: `is_available` mirrors the negation
of the Tk mapped (visible) state. -/
def RowInv (r : RowState) : Prop := r.is_available = !r.mapped

/-- The world-wide availability invariant. -/
def AvailInv (w : World) : Prop := ∀ p ∈ w.rows, RowInv p.2

/-- A concrete style definition used by example states. -/
def cexDef : StyleDefinition :=
  { name := "color", display_name := "Color", value := "red" }

/-- A concrete layout strategy object. -/
def cexStrategy : LayoutStrategy := { cls := 5, sname := "pack" }

/-- A concrete host widget: exposes one attribute property, an (empty)
identity mapping and no layout properties. -/
def cexWidget : Widget :=
  { wid := 100, cls := 1, identity := some [], properties := some [cexDef],
    layout_strategy := cexStrategy, layout_defs := [] }

/-- A concrete host widget lacking the `identity` attribute. -/
def cexNoIdentityWidget : Widget :=
  { wid := 200, cls := 3, identity := none, properties := some [],
    layout_strategy := cexStrategy, layout_defs := [] }

/-- The system after selecting `cexWidget` from the initial state. -/
def cexSysSelected : Sys := applyOp initSys (Op.select (some cexWidget))

/-- The system after then filtering with a query matching no item. -/
def cexSysFiltered : Sys := applyOp cexSysSelected (Op.search "zzz")

/-- A concrete re-purposable row whose installed callback is `some 7`. -/
def cexRow : RowState :=
  { parent := 0, name := "n", value := "v", label := "L",
    defn_display_name := "L", on_change := some 7, is_available := true,
    mapped := true }

/-- A second concrete style definition, used to rebind `cexRow`. -/
def cexDef2 : StyleDefinition :=
  { name := "size", display_name := "Size", value := "10" }

/-- A concrete layout group with a live (non-`None`) widget. -/
def cexLayoutGroupLive : GroupState :=
  { initGroup GroupKind.layoutG 1 "Layout" with cur_widget := some cexWidget }

/-- A concrete layout group that has completed one population: initialized,
with previous widget `cexWidget` and previous layout strategy
`cexStrategy`. -/
def cexLayoutGroupInit : GroupState :=
  { initGroup GroupKind.layoutG 1 "Layout" with
      has_initialized := true, prev_widget := some cexWidget,
      prev_layout := some cexStrategy }

theorem alookup_ainsert_self {α β : Type} [DecidableEq α]
    (l : List (α × β)) (k : α) (v : β) : alookup (ainsert l k v) k = some v := by
  induction l with
  | nil => simp [ainsert, alookup]
  | cons p ps ih =>
    by_cases h : p.1 = k
    · simp [ainsert, alookup, h]
    · simp [ainsert, alookup, h, ih]

theorem alookup_ainsert_ne {α β : Type} [DecidableEq α]
    (l : List (α × β)) (k k2 : α) (v : β) (h : k2 ≠ k) :
    alookup (ainsert l k v) k2 = alookup l k2 := by
  have hk : k ≠ k2 := Ne.symm h
  induction l with
  | nil => simp [ainsert, alookup, hk]
  | cons p ps ih =>
    by_cases hp : p.1 = k
    · subst hp
      simp [ainsert, alookup, hk, Ne.symm hk]
    · by_cases hp2 : p.1 = k2
      · simp [ainsert, alookup, hp, hp2, hk, Ne.symm hk]
      · simp [ainsert, alookup, hp, hp2, ih]

theorem mem_ainsert {α β : Type} [DecidableEq α]
    (l : List (α × β)) (k : α) (v : β) (q : α × β) (h : q ∈ ainsert l k v) :
    q = (k, v) ∨ q ∈ l := by
  induction l with
  | nil =>
    simp [ainsert] at h
    exact Or.inl h
  | cons p ps ih =>
    by_cases hp : p.1 = k
    · simp [ainsert, hp] at h
      rcases h with h | h
      · exact Or.inl h
      · exact Or.inr (List.mem_cons_of_mem _ h)
    · simp [ainsert, hp] at h
      rcases h with h | h
      · exact Or.inr (by simp [h])
      · rcases ih h with h2 | h2
        · exact Or.inl h2
        · exact Or.inr (List.mem_cons_of_mem _ h2)

theorem mem_aerase {α β : Type} [DecidableEq α]
    (l : List (α × β)) (k : α) (q : α × β) (h : q ∈ aerase l k) : q ∈ l := by
  induction l with
  | nil => simp [aerase] at h
  | cons p ps ih =>
    by_cases hp : p.1 = k
    · simp [aerase, hp] at h
      exact List.mem_cons_of_mem _ h
    · simp [aerase, hp] at h
      rcases h with h | h
      · simp [h]
      · exact List.mem_cons_of_mem _ (ih h)

theorem alookup_none_of_lt {β : Type} (l : List (Nat × β)) (n : Nat)
    (h : ∀ p ∈ l, p.1 < n) : alookup l n = none := by
  induction l with
  | nil => rfl
  | cons p ps ih =>
    have h1 : p.1 ≠ n := Nat.ne_of_lt (h p (by simp))
    simp [alookup, h1]
    exact ih (fun q hq => h q (List.mem_cons_of_mem _ hq))

theorem rePurposed_true (r : RowState) (d : StyleDefinition) (oc : Option Nat) :
    rePurposed r d oc true = Except.ok (rePurposedOk r d oc) := rfl

theorem acquire_of_pooled_none (w : World) (parent : Nat) (d : StyleDefinition)
    (oc : Option Nat) (h : pooled_available w parent d.name = none) :
    acquire w parent d oc = mkRow w parent d oc := by
  unfold acquire
  unfold pooled_available at h
  cases hp : w.poolOf parent with
  | none => rfl
  | some pd =>
    rw [hp] at h
    by_cases he : pd.isEmpty
    · simp [he]
    · simp only [he, Bool.false_eq_true, if_false] at h ⊢
      cases hl : alookup pd (PoolKey.str d.name) with
      | none => simp [hl]
      | some rid =>
        rw [hl] at h
        simp only [] at h ⊢
        cases hr : w.findRow rid with
        | none => simp [hr]
        | some r =>
          rw [hr] at h
          simp only [hr] at h ⊢
          by_cases ha : r.is_available
          · simp [ha] at h
          · simp [ha]

theorem acquire_of_pooled_some (w : World) (parent : Nat) (d : StyleDefinition)
    (oc : Option Nat) (rid : Nat)
    (h : pooled_available w parent d.name = some rid) :
    ∃ r, w.findRow rid = some r ∧ r.is_available = true ∧
      acquire w parent d oc = (rid, w.setRow rid (rePurposedOk r d oc)) := by
  unfold acquire
  unfold pooled_available at h
  cases hp : w.poolOf parent with
  | none => rw [hp] at h; exact absurd h (by simp)
  | some pd =>
    rw [hp] at h
    by_cases he : pd.isEmpty
    · simp [he] at h
    · simp only [he, Bool.false_eq_true, if_false] at h ⊢
      cases hl : alookup pd (PoolKey.str d.name) with
      | none => rw [hl] at h; simp at h
      | some rid2 =>
        rw [hl] at h
        simp only [] at h ⊢
        cases hr : w.findRow rid2 with
        | none => rw [hr] at h; simp at h
        | some r =>
          rw [hr] at h
          simp only [hr] at h ⊢
          by_cases ha : r.is_available
          · simp [ha] at h
            subst h
            exact ⟨r, hr, by simp [ha], by simp [ha]⟩
          · simp [ha] at h

theorem alookup_mem {α β : Type} [DecidableEq α]
    (l : List (α × β)) (k : α) (v : β) (h : alookup l k = some v) : (k, v) ∈ l := by
  induction l with
  | nil => simp [alookup] at h
  | cons p ps ih =>
    by_cases hp : p.1 = k
    · simp [alookup, hp] at h
      have hpv : p = (k, v) := by
        rw [Prod.ext_iff]
        exact ⟨hp, h⟩
      rw [← hpv]
      exact List.mem_cons_self _ _
    · simp [alookup, hp] at h
      exact List.mem_cons_of_mem _ (ih h)

theorem rowInv_mapRow (r : RowState) (h : RowInv r) : RowInv (mapRow r) := by
  unfold RowInv mapRow at *
  by_cases hm : r.mapped <;> simp [hm] at * <;> simp [h]

theorem rowInv_unmapRow (r : RowState) (h : RowInv r) : RowInv (unmapRow r) := by
  unfold RowInv unmapRow at *
  by_cases hm : r.mapped <;> simp [hm] at * <;> simp [h]

theorem rePurposedOk_fields (r : RowState) (d : StyleDefinition) (oc : Option Nat) :
    (rePurposedOk r d oc).is_available = r.is_available ∧
    (rePurposedOk r d oc).mapped = r.mapped ∧
    (rePurposedOk r d oc).parent = r.parent := by
  cases oc <;>
    simp [rePurposedOk, rpLabeled, rpValued, rpNamed, rpNulled, rpInstalled]

theorem rowInv_rePurposedOk (r : RowState) (d : StyleDefinition) (oc : Option Nat)
    (h : RowInv r) : RowInv (rePurposedOk r d oc) := by
  unfold RowInv at *
  rw [(rePurposedOk_fields r d oc).1, (rePurposedOk_fields r d oc).2.1]
  exact h

theorem availInv_setRow (w : World) (rid : Nat) (r : RowState)
    (hw : AvailInv w) (hr : RowInv r) : AvailInv (w.setRow rid r) := by
  intro q hq
  rcases mem_ainsert _ _ _ _ hq with h | h
  · rw [h]; exact hr
  · exact hw q h

theorem availInv_mkRow (w : World) (parent : Nat) (d : StyleDefinition)
    (oc : Option Nat) (hw : AvailInv w) : AvailInv (mkRow w parent d oc).2 := by
  intro q hq
  rcases mem_ainsert _ _ _ _ hq with h | h
  · rw [h]; rfl
  · exact hw q h

theorem availInv_acquire (w : World) (parent : Nat) (d : StyleDefinition)
    (oc : Option Nat) (hw : AvailInv w) : AvailInv (acquire w parent d oc).2 := by
  cases hpa : pooled_available w parent d.name with
  | some rid =>
    obtain ⟨r, hr, _, heq⟩ := acquire_of_pooled_some w parent d oc rid hpa
    rw [heq]
    exact availInv_setRow _ _ _ hw
      (rowInv_rePurposedOk _ _ _ (hw (rid, r) (alookup_mem _ _ _ hr)))
  | none =>
    rw [acquire_of_pooled_none w parent d oc hpa]
    exact availInv_mkRow _ _ _ _ hw

theorem availInv_showRowW (w : World) (rid : Nat) (hw : AvailInv w) :
    AvailInv (showRowW w rid) := by
  unfold showRowW
  cases hr : w.findRow rid with
  | some r =>
    exact availInv_setRow _ _ _ hw (rowInv_mapRow _ (hw (rid, r) (alookup_mem _ _ _ hr)))
  | none => exact hw

theorem availInv_hideRowW (w : World) (rid : Nat) (hw : AvailInv w) :
    AvailInv (hideRowW w rid) := by
  unfold hideRowW
  cases hr : w.findRow rid with
  | some r =>
    exact availInv_setRow _ _ _ hw (rowInv_unmapRow _ (hw (rid, r) (alookup_mem _ _ _ hr)))
  | none => exact hw

theorem availInv_rePurposeW (w : World) (rid : Nat) (d : StyleDefinition)
    (oc : Option Nat) (hw : AvailInv w) : AvailInv (rePurposeW w rid d oc) := by
  unfold rePurposeW
  cases hr : w.findRow rid with
  | some r =>
    exact availInv_setRow _ _ _ hw
      (rowInv_rePurposedOk _ _ _ (hw (rid, r) (alookup_mem _ _ _ hr)))
  | none => exact hw

theorem availInv_clearChildrenW (w : World) (scope : Nat) (hw : AvailInv w) :
    AvailInv (clearChildrenW w scope) := by
  intro q hq
  unfold clearChildrenW at hq
  simp only [List.mem_map] at hq
  obtain ⟨p, hp, hfq⟩ := hq
  by_cases hpar : p.2.parent = scope
  · simp [hpar] at hfq
    rw [← hfq]
    exact rowInv_unmapRow _ (hw p hp)
  · simp [hpar] at hfq
    rw [← hfq]
    exact hw p hp

theorem availInv_refreshLoop (g : GroupState) :
    ∀ (ds : List StyleDefinition) (w : World), AvailInv w →
      AvailInv (refreshLoop g w ds).2 := by
  intro ds
  induction ds with
  | nil => intro w hw; exact hw
  | cons d ds ih =>
    intro w hw
    unfold refreshLoop
    cases alookup g.items d.name with
    | some rid => exact ih _ (availInv_rePurposeW _ _ _ _ hw)
    | none => exact hw

theorem availInv_stepAcquire (g : GroupState) (w : World) (d : StyleDefinition)
    (hw : AvailInv w) : AvailInv (stepAcquire g w d).2 := by
  unfold stepAcquire
  exact availInv_showRowW _ _ (availInv_acquire _ _ _ _ hw)

theorem availInv_rebuildLoop :
    ∀ (ds : List StyleDefinition) (g : GroupState) (w : World), AvailInv w →
      AvailInv (rebuildLoop g w ds).2 := by
  intro ds
  induction ds with
  | nil => intro g w hw; exact hw
  | cons d ds ih =>
    intro g w hw
    unfold rebuildLoop
    exact ih _ _ (availInv_stepAcquire _ _ _ hw)

theorem availInv_styleOWC (g : GroupState) (w : World) (widget : Option Widget)
    (hw : AvailInv w) : AvailInv (styleGroupOnWidgetChange g w widget).w := by
  unfold styleGroupOnWidgetChange
  cases widget with
  | none => exact availInv_clearChildrenW _ _ hw
  | some wd =>
    simp only []
    by_cases hco : can_optimize { g with cur_widget := some wd }
    · simp only [hco, if_true]
      cases get_definition { g with cur_widget := some wd } with
      | none => exact hw
      | some ds =>
        simp only []
        rcases hrl : refreshLoop { g with cur_widget := some wd } w ds with ⟨e, w2⟩
        have h2 : AvailInv w2 := by
          have := availInv_refreshLoop { g with cur_widget := some wd } ds w hw
          rw [hrl] at this
          exact this
        cases e <;> simp [hrl] <;> exact h2
    · simp only [hco, if_false]
      cases get_definition { g with cur_widget := some wd } with
      | none => exact availInv_clearChildrenW _ _ hw
      | some ds =>
        simp only []
        exact availInv_rebuildLoop ds _ _ (availInv_clearChildrenW _ _ hw)

theorem availInv_layoutOWC (g : GroupState) (w : World) (widget : Option Widget)
    (hw : AvailInv w) : AvailInv (layoutGroupOnWidgetChange g w widget).w := by
  have h := availInv_styleOWC g w widget hw
  unfold layoutGroupOnWidgetChange
  rcases ho : styleGroupOnWidgetChange g w widget with ⟨e, g2, w2, b⟩
  rw [ho] at h
  cases e with
  | some e2 => simpa using h
  | none =>
    cases widget with
    | none => simpa using h
    | some wd => simpa using h

theorem availInv_groupOWC (g : GroupState) (w : World) (widget : Option Widget)
    (hw : AvailInv w) : AvailInv (groupOnWidgetChange g w widget).w := by
  unfold groupOnWidgetChange
  cases g.kind
  · exact availInv_styleOWC _ _ _ hw
  · exact availInv_styleOWC _ _ _ hw
  · exact availInv_styleOWC _ _ _ hw
  · exact availInv_layoutOWC _ _ _ hw

theorem availInv_notifyGroups :
    ∀ (gs : List GroupState) (w : World) (wd : Option Widget), AvailInv w →
      AvailInv (notifyGroups gs w wd).2.2.1 := by
  intro gs
  induction gs with
  | nil => intro w wd hw; exact hw
  | cons g gs ih =>
    intro w wd hw
    have h := availInv_groupOWC g w wd hw
    unfold notifyGroups
    rcases ho : groupOnWidgetChange g w wd with ⟨e, g2, w2, b⟩
    rw [ho] at h
    cases e with
    | some e2 => simpa using h
    | none => simpa using ih w2 wd h

theorem availInv_stylesFor (p : PanelState) (w : World) (widget : Option Widget)
    (hw : AvailInv w) : AvailInv (stylesFor p w widget).w := by
  unfold stylesFor
  cases widget with
  | none => exact hw
  | some wd =>
    simp only []
    have h := availInv_notifyGroups p.groups w (some wd) hw
    cases (notifyGroups p.groups w (some wd)).1 with
    | some e => exact h
    | none => exact h

theorem availInv_groupSearch (g : GroupState) (query : String) :
    ∀ (its : List (String × Nat)) (w : World), AvailInv w →
      AvailInv (its.foldl
        (fun acc it =>
          match acc.findRow it.2 with
          | some r =>
            if strContains query r.defn_display_name then showRowW acc it.2
            else hideRowW acc it.2
          | none => acc)
        w) := by
  intro its
  induction its with
  | nil => intro w hw; exact hw
  | cons it its ih =>
    intro w hw
    simp only [List.foldl_cons]
    apply ih
    cases hr : w.findRow it.2 with
    | some r =>
      simp only [hr]
      by_cases hc : strContains query r.defn_display_name
      · simp only [hc, if_true]; exact availInv_showRowW _ _ hw
      · simp only [hc, if_false]; exact availInv_hideRowW _ _ hw
    | none => simp only [hr]; exact hw

theorem availInv_groupOnSearchQuery (g : GroupState) (w : World) (query : String)
    (hw : AvailInv w) : AvailInv (groupOnSearchQuery g w query) :=
  availInv_groupSearch g query g.items w hw

theorem availInv_panelSearch (query : String) :
    ∀ (gs : List GroupState) (w : World), AvailInv w →
      AvailInv (gs.foldl (fun acc g => groupOnSearchQuery g acc query) w) := by
  intro gs
  induction gs with
  | nil => intro w hw; exact hw
  | cons g gs ih =>
    intro w hw
    simp only [List.foldl_cons]
    exact ih _ (availInv_groupOnSearchQuery g w query hw)

theorem availInv_layoutFor (p : PanelState) (w : World) (wd : Widget)
    (hw : AvailInv w) : AvailInv (layoutFor p w wd).2.2 := by
  unfold layoutFor
  cases p.groups with
  | nil => exact hw
  | cons g0 rest =>
    cases rest with
    | nil => exact hw
    | cons g1 rest2 => exact availInv_groupOWC _ _ _ hw

theorem availInv_destroyRow (w : World) (rid : Nat) (hw : AvailInv w) :
    AvailInv (destroyRow w rid) := by
  unfold destroyRow
  cases w.findRow rid with
  | none => exact hw
  | some r =>
    intro q hq
    exact hw q (mem_aerase _ _ _ hq)

/-- C5: evaluation at the failing input.  On an already-empty group,
`on_widget_change(None)` is indeed an error-free no-op for the base,
identity and attribute groups (the world, pool and items are untouched),
but `LayoutGroup.on_widget_change(None)` raises `AttributeError`: the
statement `self._prev_layout = widget.layout.layout_strategy` dereferences
`None` before the `if widget:` guard below it. -/
theorem layout_on_widget_change_none_raises :
    (groupOnWidgetChange (initGroup GroupKind.identityG 0 "Widget identity")
        initWorld none) =
      { err := none,
        g := initGroup GroupKind.identityG 0 "Widget identity",
        w := initWorld, branch := Branch.collapsed } ∧
    (groupOnWidgetChange (initGroup GroupKind.attributeG 2 "Attributes")
        initWorld none) =
      { err := none,
        g := initGroup GroupKind.attributeG 2 "Attributes",
        w := initWorld, branch := Branch.collapsed } ∧
    (groupOnWidgetChange (initGroup GroupKind.layoutG 1 "Layout")
        initWorld none).err = some PyErr.attributeError := by
  decide

/-- C6: evaluation at the failing input.  `IdentityGroup.get_definition`
returns Python `None` (not an empty mapping) for a selected object without
an `identity` attribute, and `on_widget_change` then raises `TypeError`
when it iterates that `None`. -/
theorem identity_missing_defs_raises :
    get_definition { initGroup GroupKind.identityG 0 "Widget identity" with
        cur_widget := some cexNoIdentityWidget } = none ∧
    (groupOnWidgetChange (initGroup GroupKind.identityG 0 "Widget identity")
        initWorld (some cexNoIdentityWidget)).err = some PyErr.typeError := by
  decide

/-- C9 counterexample: when the `_editor.set` reassignment raises during a
re-purpose with no replacement callback, the exception escapes with the
row's callback still `None` — neither the previous callback (`some 7`)
nor any new one is restored, because `_re_purposed` has no try/finally. -/
theorem re_purpose_failure_not_restored :
    rePurposed cexRow cexDef2 none false
      = Except.error (rpNamed cexRow none cexDef2) ∧
    (rpNamed cexRow none cexDef2).on_change = none ∧
    cexRow.on_change = some 7 :=
  ⟨rfl, rfl, rfl⟩

/-- C9 (amended): the callback is `None` throughout the name, value and
label reassignment; a normal completion restores the new callback when one
was supplied and the previous one otherwise and installs the definition's
name, value and label; but a failing reassignment propagates with the
callback left `None` (no restoration on the failure path). -/
theorem re_purpose_callback_spec :
    ∀ (r : RowState) (d : StyleDefinition) (oc : Option Nat),
      (rpNulled r oc).on_change = none ∧
      (rpNamed r oc d).on_change = none ∧
      (rpValued r oc d).on_change = none ∧
      (rpLabeled r oc d).on_change = none ∧
      rePurposed r d oc true = Except.ok (rePurposedOk r d oc) ∧
      (rePurposedOk r d oc).on_change =
        (match oc with
         | some c => some c
         | none => r.on_change) ∧
      (rePurposedOk r d oc).name = d.name ∧
      (rePurposedOk r d oc).value = d.value ∧
      (rePurposedOk r d oc).label = d.display_name ∧
      rePurposed r d oc false = Except.error (rpNamed r oc d) := by
  intro r d oc
  cases oc <;>
    simp [rpNulled, rpNamed, rpValued, rpLabeled, rpInstalled, rePurposed,
      rePurposedOk]

/-- C7 counterexample: `LayoutGroup.apply` logs unconditionally on
failure; in particular a rejected empty-string value still produces a log
entry, unlike the generic `StyleGroup.apply`. -/
theorem layout_apply_logs_empty_value :
    (layoutGroupApply cexLayoutGroupLive initWorld false "boom" "width" "").2
      = ["boom : Could not set layout width as "] := by
  decide

/-- C7 (amended): both apply methods swallow the failure (they return
normally) and never touch row or pool state; the generic
`StyleGroup.apply` logs two entries on failure except when the value is
the empty string (suppressed) or the widget is `None` (early return),
while `LayoutGroup.apply` logs exactly one entry on every failure,
including the empty-value case. -/
theorem apply_error_handling_spec :
    ∀ (g : GroupState) (w : World) (cfgOk : Bool) (excMsg prop value : String),
      (styleGroupApply g w cfgOk excMsg prop value).1 = w ∧
      (layoutGroupApply g w cfgOk excMsg prop value).1 = w ∧
      (g.cur_widget = none → (styleGroupApply g w cfgOk excMsg prop value).2 = []) ∧
      (styleGroupApply g w true excMsg prop value).2 = [] ∧
      (g.cur_widget ≠ none → value ≠ "" →
        (styleGroupApply g w false excMsg prop value).2
          = [excMsg, "Could not set style " ++ prop ++ " as " ++ value]) ∧
      (styleGroupApply g w false excMsg prop "").2 = [] ∧
      (g.cur_widget ≠ none →
        (layoutGroupApply g w true excMsg prop value).2 = []) ∧
      (layoutGroupApply g w false excMsg prop value).2
        = [excMsg ++ " : Could not set layout " ++ prop ++ " as " ++ value] := by
  intro g w cfgOk excMsg prop value
  cases hcw : g.cur_widget with
  | none =>
    simp [styleGroupApply, layoutGroupApply, hcw]
  | some wd =>
    refine ⟨?_, ?_, ?_, ?_, ?_, ?_, ?_, ?_⟩
    · cases cfgOk <;> by_cases hv : value = "" <;>
        simp [styleGroupApply, hcw, hv]
    · simp [layoutGroupApply, hcw]
      cases cfgOk <;> simp
    · intro h; simp [hcw] at h
    · simp [styleGroupApply, hcw]
    · intro _ hv; simp [styleGroupApply, hcw, hv]
    · simp [styleGroupApply, hcw]
    · intro _; simp [layoutGroupApply, hcw]
    · simp [layoutGroupApply, hcw]

/-- C7 witness: the amended apply behaviour at concrete inputs — a failing
non-empty write logs both entries, a failing empty write logs none. -/
theorem apply_error_handling_spec_witness :
    (styleGroupApply cexLayoutGroupLive initWorld false "boom" "color" "blue").2
      = ["boom", "Could not set style color as blue"] ∧
    (styleGroupApply cexLayoutGroupLive initWorld false "boom" "color" "").2 = [] := by
  have h := apply_error_handling_spec cexLayoutGroupLive initWorld false "boom"
    "color" "blue"
  exact ⟨h.2.2.2.2.1 (by decide) (by decide), h.2.2.2.2.2.1⟩

/-- C8: evaluation at the failing input.  Destroying the only pooled row
(id 10, key `"color"`, scope 0) removes the widget but leaves the pool
still mapping the key to the destroyed row, because `destroy` tests
`self in pool` against the dict's keys, which are definition-name
strings, never item objects. -/
theorem destroy_leaves_pool_entry :
    (destroyRow (mkRow initWorld 0 cexDef none).2 10).findRow 10 = none ∧
    (destroyRow (mkRow initWorld 0 cexDef none).2 10).poolOf 0
      = some [(PoolKey.str "color", 10)] := by
  decide

theorem ainsert_isEmpty {α β : Type} [DecidableEq α]
    (l : List (α × β)) (k : α) (v : β) : (ainsert l k v).isEmpty = false := by
  cases l with
  | nil => rfl
  | cons p ps =>
    unfold ainsert
    by_cases h : p.1 = k <;> simp [h]

theorem alookup_isEmpty_false {α β : Type} [DecidableEq α]
    (l : List (α × β)) (k : α) (v : β) (h : alookup l k = some v) :
    l.isEmpty = false := by
  cases l with
  | nil => simp [alookup] at h
  | cons p ps => rfl

/-- C1: `acquire` returns the pooled row re-purposed with the new
definition and callback if and only if the pool holds a row for that
scope and key whose `available` flag is true; in every other case it
returns a freshly constructed row bound to the scope, registered in the
pool under the definition key; the pools of all other scopes are never
touched (no relocation across scopes); and every returned row is either
fresh or was available at the time of the call (never an owned visible
row). -/
theorem acquire_reuse_iff
    (w : World) (parent : Nat) (d : StyleDefinition) (oc : Option Nat)
    (hfresh : ∀ p ∈ w.rows, p.1 < w.nextId) :
    (∀ pd rid r, w.poolOf parent = some pd →
        alookup pd (PoolKey.str d.name) = some rid →
        w.findRow rid = some r → r.is_available = true →
        acquire w parent d oc = (rid, w.setRow rid (rePurposedOk r d oc))) ∧
    (pooled_available w parent d.name = none →
      (acquire w parent d oc).1 = w.nextId ∧
      w.findRow w.nextId = none ∧
      (acquire w parent d oc).2.findRow w.nextId =
        some { parent := parent, name := d.name, value := d.value,
               label := d.display_name, defn_display_name := d.display_name,
               on_change := oc, is_available := true, mapped := false } ∧
      alookup (((acquire w parent d oc).2.poolOf parent).getD [])
        (PoolKey.str d.name) = some w.nextId) ∧
    (∀ s, s ≠ parent → (acquire w parent d oc).2.poolOf s = w.poolOf s) ∧
    ((acquire w parent d oc).1 = w.nextId ∨
      ∃ r, w.findRow (acquire w parent d oc).1 = some r ∧
        r.is_available = true) := by
  refine ⟨?_, ?_, ?_, ?_⟩
  · intro pd rid r hpool hl hr ha
    have hpd : pd.isEmpty = false := alookup_isEmpty_false pd _ _ hl
    have hpa : pooled_available w parent d.name = some rid := by
      unfold pooled_available
      rw [hpool]
      simp only [hpd, Bool.false_eq_true, if_false]
      rw [hl]
      simp only []
      rw [hr]
      simp [ha]
    obtain ⟨r2, hr2, ha2, heq⟩ := acquire_of_pooled_some w parent d oc rid hpa
    have hrr : r2 = r := by
      rw [hr] at hr2
      exact (Option.some_inj.mp hr2).symm
    rw [heq, hrr]
  · intro hpa
    have heq := acquire_of_pooled_none w parent d oc hpa
    have hnone : w.findRow w.nextId = none := alookup_none_of_lt w.rows w.nextId hfresh
    refine ⟨by rw [heq]; rfl, hnone, ?_, ?_⟩
    · rw [heq]
      unfold mkRow World.findRow
      simp only []
      exact alookup_ainsert_self _ _ _
    · rw [heq]
      unfold mkRow World.poolOf
      simp only []
      rw [alookup_ainsert_self]
      simp only [Option.getD_some]
      exact alookup_ainsert_self _ _ _
  · intro s hs
    cases hpa : pooled_available w parent d.name with
    | some rid =>
      obtain ⟨r, hr, ha, heq⟩ := acquire_of_pooled_some w parent d oc rid hpa
      rw [heq]
      rfl
    | none =>
      rw [acquire_of_pooled_none w parent d oc hpa]
      unfold mkRow World.poolOf
      simp only []
      exact alookup_ainsert_ne _ _ _ _ hs
  · cases hpa : pooled_available w parent d.name with
    | some rid =>
      obtain ⟨r, hr, ha, heq⟩ := acquire_of_pooled_some w parent d oc rid hpa
      right
      rw [heq]
      exact ⟨r, hr, ha⟩
    | none =>
      left
      rw [acquire_of_pooled_none w parent d oc hpa]
      rfl

/-- C1 witness: in the initial world the pool has no row for scope 0 and
key `"color"`, so `acquire` constructs the fresh row `nextId`. -/
theorem acquire_reuse_iff_witness :
    (acquire initWorld 0 cexDef none).1 = initWorld.nextId ∧
    initWorld.findRow initWorld.nextId = none := by
  have h := acquire_reuse_iff initWorld 0 cexDef none (by decide)
  have h2 := h.2.1 (by decide)
  exact ⟨h2.1, h2.2.1⟩

/-- C10: a freshly constructed row is available from construction (it is
registered unmapped with `is_available = True`), so a second `acquire`
for the same scope and key issued before the row is ever shown returns
the identical row re-purposed — the second call constructs nothing (the
id supply is untouched). -/
theorem fresh_row_reacquire
    (w : World) (parent : Nat) (d1 d2 : StyleDefinition) (oc1 oc2 : Option Nat)
    (hname : d2.name = d1.name)
    (hmiss : pooled_available w parent d1.name = none)
    (hfresh : ∀ p ∈ w.rows, p.1 < w.nextId) :
    (acquire w parent d1 oc1).2.findRow (acquire w parent d1 oc1).1 =
      some { parent := parent, name := d1.name, value := d1.value,
             label := d1.display_name, defn_display_name := d1.display_name,
             on_change := oc1, is_available := true, mapped := false } ∧
    (acquire (acquire w parent d1 oc1).2 parent d2 oc2).1
      = (acquire w parent d1 oc1).1 ∧
    (acquire (acquire w parent d1 oc1).2 parent d2 oc2).2.nextId
      = (acquire w parent d1 oc1).2.nextId := by
  have heq := acquire_of_pooled_none w parent d1 oc1 hmiss
  have hfind : (mkRow w parent d1 oc1).2.findRow w.nextId =
      some { parent := parent, name := d1.name, value := d1.value,
             label := d1.display_name, defn_display_name := d1.display_name,
             on_change := oc1, is_available := true, mapped := false } := by
    unfold mkRow World.findRow
    simp only []
    exact alookup_ainsert_self _ _ _
  have hpool2 : (mkRow w parent d1 oc1).2.poolOf parent =
      some (ainsert ((w.poolOf parent).getD []) (PoolKey.str d1.name) w.nextId) := by
    unfold mkRow World.poolOf
    simp only []
    exact alookup_ainsert_self _ _ _
  have hpa2 : pooled_available (mkRow w parent d1 oc1).2 parent d2.name
      = some w.nextId := by
    unfold pooled_available
    rw [hpool2]
    simp only [ainsert_isEmpty, Bool.false_eq_true, if_false, hname,
      alookup_ainsert_self]
    rw [hfind]
    simp
  obtain ⟨r2, hr2, ha2, heq2⟩ :=
    acquire_of_pooled_some (mkRow w parent d1 oc1).2 parent d2 oc2 w.nextId hpa2
  refine ⟨?_, ?_, ?_⟩
  · rw [heq]; exact hfind
  · rw [heq, heq2]
    rfl
  · rw [heq, heq2]
    rfl

/-- C10 witness: acquiring `"color"` twice from the empty initial world
without showing the row in between returns the same row id both times. -/
theorem fresh_row_reacquire_witness :
    (acquire (acquire initWorld 0 cexDef none).2 0 cexDef none).1
      = (acquire initWorld 0 cexDef none).1 := by
  have h := fresh_row_reacquire initWorld 0 cexDef cexDef none none rfl
    (by decide) (by decide)
  exact h.2.1

/-- C3: on every reachable `LayoutGroup` state (where an uninitialized
group still has its constructor-set `None` previous widget and previous
layout), `can_optimize` evaluated against a new non-`None` widget equals
the conjunction of: initialized, layout-strategy class equality with the
previous selection, and object equality with the previous selection — the
source omits the explicit `_has_initialized` conjunct, but before first
initialization the `None` previous widget and `NoneType` previous
strategy class make both remaining conjuncts false; and whenever the
predicate is false, `on_widget_change` takes the rebuild branch. -/
theorem layout_can_optimize_spec
    (g : GroupState) (wd : Widget) (w : World)
    (hk : g.kind = GroupKind.layoutG)
    (hinv : g.has_initialized = false →
      g.prev_widget = none ∧ g.prev_layout = none) :
    (can_optimize { g with cur_widget := some wd } =
      (g.has_initialized &&
        (strat_class (some wd.layout_strategy) == strat_class g.prev_layout) &&
        py_eq_widget (some wd) g.prev_widget)) ∧
    (can_optimize { g with cur_widget := some wd } = false →
      (groupOnWidgetChange g w (some wd)).branch = Branch.rebuild) := by
  constructor
  · unfold can_optimize
    simp only [hk]
    cases hi : g.has_initialized with
    | true => simp
    | false =>
      obtain ⟨hpw, hpl⟩ := hinv hi
      rw [hpw, hpl]
      simp [strat_class, py_eq_widget]
  · intro hco
    have hb : (styleGroupOnWidgetChange g w (some wd)).branch = Branch.rebuild := by
      unfold styleGroupOnWidgetChange
      simp only [hco, Bool.false_eq_true, if_false]
      cases get_definition { g with cur_widget := some wd } with
      | none => rfl
      | some ds => rfl
    unfold groupOnWidgetChange
    rw [hk]
    unfold layoutGroupOnWidgetChange
    rcases ho : styleGroupOnWidgetChange g w (some wd) with ⟨e, g2, w2, b⟩
    rw [ho] at hb
    cases e with
    | some e2 => simpa using hb
    | none => simpa using hb

/-- C3 witness: the predicate at a concrete initialized layout group
re-selecting the same widget with the same strategy. -/
theorem layout_can_optimize_spec_witness :
    can_optimize { cexLayoutGroupInit with cur_widget := some cexWidget } =
      (cexLayoutGroupInit.has_initialized &&
        (strat_class (some cexWidget.layout_strategy)
          == strat_class cexLayoutGroupInit.prev_layout) &&
        py_eq_widget (some cexWidget) cexLayoutGroupInit.prev_widget) :=
  (layout_can_optimize_spec cexLayoutGroupInit cexWidget initWorld rfl
    (by decide)).1

/-- C4 counterexample: selecting `None` makes `styles_for` show the empty
placeholder and return before the group loop — no group of the three-group
panel is notified, contradicting the claim that every group is still
notified on a null selection. -/
theorem styles_for_none_notifies_no_group :
    (stylesFor initPanel initWorld none).notified = [] ∧
    initPanel.groups.length = 3 ∧
    (stylesFor initPanel initWorld none).p.placeholder = some "empty" := by
  decide

theorem notifyGroups_notified :
    ∀ (gs : List GroupState) (w : World) (wd : Option Widget),
      (notifyGroups gs w wd).1 = none →
      (notifyGroups gs w wd).2.2.2 = gs.map (fun g => g.scope) := by
  intro gs
  induction gs with
  | nil => intro w wd _; rfl
  | cons g gs ih =>
    intro w wd h
    unfold notifyGroups at h ⊢
    rcases ho : groupOnWidgetChange g w wd with ⟨e, g2, w2, b⟩
    rw [ho] at h
    cases e with
    | some e2 => simp at h
    | none =>
      simp only [] at h ⊢
      rw [List.map_cons]
      exact congrArg _ (ih w2 wd h)

/-- C4 (amended): for a `None` selection, `styles_for` records the
selection, shows the empty placeholder and notifies no group; for a
non-`None` selection whose group updates all succeed, it notifies every
group in registration order and afterwards hides the placeholder. -/
theorem styles_for_spec (p : PanelState) (w : World) :
    (stylesFor p w none =
      { err := none,
        p := { p with current := none, placeholder := some "empty" },
        w := w, notified := [] }) ∧
    (∀ wd : Widget, (stylesFor p w (some wd)).err = none →
      (stylesFor p w (some wd)).notified = p.groups.map (fun g => g.scope) ∧
      (stylesFor p w (some wd)).p.placeholder = none ∧
      (stylesFor p w (some wd)).p.current = some wd) := by
  constructor
  · rfl
  · intro wd herr
    have hnn := notifyGroups_notified p.groups w (some wd)
    unfold stylesFor at herr ⊢
    simp only [] at herr ⊢
    rcases hr : notifyGroups p.groups w (some wd) with ⟨e, gs2, w2, ns⟩
    rw [hr] at herr hnn
    cases e with
    | some e2 => simp at herr
    | none =>
      simp only [] at hnn herr ⊢
      exact ⟨hnn trivial, trivial, trivial⟩

/-- C4 witness: a concrete successful selection notifies the identity,
layout and attribute groups in order and hides the placeholder. -/
theorem styles_for_spec_witness :
    (stylesFor initPanel initWorld (some cexWidget)).notified = [0, 1, 2] ∧
    (stylesFor initPanel initWorld (some cexWidget)).p.placeholder = none := by
  have h := (styles_for_spec initPanel initWorld).2 cexWidget (by decide)
  exact ⟨h.1.trans (by decide), h.2.1⟩

/-- C2 counterexample: from the initial system, select `cexWidget` (its
`color` row is built, shown and recorded in the attribute group's
`items`) and then filter with the query `"zzz"`, which matches nothing:
the row is hidden by `pack_forget`, its `<Unmap>` handler marks it
available — yet it is still a member of the attribute group's `items`
map, so availability is not equivalent to non-membership in the displayed
`items` sets. -/
theorem availability_duality_cex :
    ((cexSysFiltered.world.findRow 10).map (fun r => r.is_available))
      = some true ∧
    (cexSysFiltered.panel.groups.map (fun g => alookup g.items "color"))
      = [none, none, some 10] := by
  decide

theorem availInv_panelClear :
    ∀ (gs : List GroupState) (w : World), AvailInv w →
      AvailInv (gs.foldl (fun acc g => groupOnSearchClear g acc) w) := by
  intro gs
  induction gs with
  | nil => intro w hw; exact hw
  | cons g gs ih =>
    intro w hw
    simp only [List.foldl_cons]
    exact ih _ (availInv_groupOnSearchQuery g w "" hw)

/-- C2 (amended): the availability flag tracks visibility, not group
membership — in the initial system and after any sequence of panel
operations (selection changes, search queries and clears, layout change
notifications, row destructions), every style item satisfies
`is_available = not mapped`.  (The original duality with the `items` sets
fails: a row hidden by filtering stays in its group's `items` while
available, see the counterexample.) -/
theorem availability_not_mapped_inv :
    AvailInv initSys.world ∧
    ∀ (s : Sys) (op : Op), AvailInv s.world → AvailInv (applyOp s op).world := by
  constructor
  · intro q hq
    simp [initSys, initWorld] at hq
  · intro s op h
    cases op with
    | select wd => exact availInv_stylesFor _ _ _ h
    | search q => exact availInv_panelSearch q _ _ h
    | searchClear => exact availInv_panelClear _ _ h
    | layoutChanged wd => exact availInv_layoutFor _ _ _ h
    | destroy rid => exact availInv_destroyRow _ _ h

/-- C2 witness: the invariant holds after a concrete selection from the
initial system. -/
theorem availability_not_mapped_inv_witness :
    AvailInv (applyOp initSys (Op.select (some cexWidget))).world :=
  availability_not_mapped_inv.2 initSys (Op.select (some cexWidget))
    (fun q hq => absurd hq (by simp [initSys, initWorld]))
